import Mathlib

/-!
Verification of the in-page action-execution engine of `browser-ctl`
(Chrome extension: `content-script.js`, `click.js`, `background.js`).

The DOM, layout engine and browser runtime are external collaborators:
elements are modelled as trees carrying the observable data the code
reads (tag, attributes, rendered text, rendered visibility, light
children, shadow-root children), and the CSS engine is modelled by a
matcher for the selector forms the code itself constructs or that the
claims exercise (type selectors, `#id`, `[attr="value"]`).
All definitions follow the JavaScript source; section comments cite the
file and function each definition embeds.
-/

/-! ## String helpers (JS `String.prototype.includes` / `toLowerCase`) -/

/-- JS `needle.isPrefixOf hay` on char lists (used by `listIncludes`). -/
def listIsPrefix : List Char → List Char → Bool
  | [], _ => true
  | _ :: _, [] => false
  | a :: as, b :: bs => a == b && listIsPrefix as bs

/-- JS `hay.includes(needle)` on char lists: some suffix of `hay` starts
with `needle`. -/
def listIncludes (needle : List Char) : List Char → Bool
  | [] => needle.isEmpty
  | c :: rest => listIsPrefix needle (c :: rest) || listIncludes needle rest

/-- JS `hay.includes(needle)` on strings. -/
def jsIncludes (hay needle : String) : Bool :=
  listIncludes needle.data hay.data

/-- JS `s.toLowerCase()` (character-wise lowering). -/
def jsToLower (s : String) : String :=
  String.mk (s.data.map Char.toLower)

theorem listIsPrefix_append {n l : List Char} (r : List Char)
    (h : listIsPrefix n l = true) : listIsPrefix n (l ++ r) = true := by
  induction n generalizing l with
  | nil => rfl
  | cons a as ih =>
    cases l with
    | nil => simp [listIsPrefix] at h
    | cons b bs =>
      simp only [listIsPrefix, Bool.and_eq_true] at h ⊢
      exact ⟨h.1, ih h.2⟩

theorem listIncludes_append_left {n l : List Char} (r : List Char)
    (h : listIncludes n l = true) : listIncludes n (l ++ r) = true := by
  induction l with
  | nil =>
    simp only [listIncludes, List.isEmpty_iff] at h
    subst h
    cases r <;> rfl
  | cons c cs ih =>
    simp only [listIncludes, Bool.or_eq_true] at h ⊢
    cases h with
    | inl hp => exact Or.inl (listIsPrefix_append r hp)
    | inr hi => exact Or.inr (ih hi)

theorem listIncludes_append_right {n r : List Char} (l : List Char)
    (h : listIncludes n r = true) : listIncludes n (l ++ r) = true := by
  induction l with
  | nil => simpa using h
  | cons c cs ih =>
    simp only [List.cons_append, listIncludes, Bool.or_eq_true]
    exact Or.inr ih

/-! ## Element model

An element records exactly what the injected scripts observe: `tag`
(lowercased `tagName`), `attrs` (attribute list), `text` (the value of
`el.innerText || el.textContent || ""`), `visible` (the outcome of the
layout-dependent `checkVisible(el)`, an external rendering fact),
`children` (light-DOM children) and `shadow` (children of the open
shadow root; `[]` when the element has no shadow root). -/

inductive Elem : Type where
  | node (tag : String) (attrs : List (String × String)) (text : String)
      (visible : Bool) (children : List Elem) (shadow : List Elem)

def Elem.tag : Elem → String
  | .node t _ _ _ _ _ => t

def Elem.attrs : Elem → List (String × String)
  | .node _ a _ _ _ _ => a

def Elem.text : Elem → String
  | .node _ _ x _ _ _ => x

def Elem.visible : Elem → Bool
  | .node _ _ _ v _ _ => v

def Elem.children : Elem → List Elem
  | .node _ _ _ _ cs _ => cs

def Elem.shadow : Elem → List Elem
  | .node _ _ _ _ _ sh => sh

/-- JS `el.getAttribute(name)` (`none` = attribute absent / `null`). -/
def getAttr (e : Elem) (name : String) : Option String :=
  (e.attrs.find? (fun p => p.1 == name)).map Prod.snd

/-- JS `el.hasAttribute(name)`. -/
def hasAttr (e : Elem) (name : String) : Bool :=
  (getAttr e name).isSome

/-- JS truthiness of a reflected string property (`el.type`, `el.id`,
`el.name`, …): present and non-empty. -/
def attrTruthy (e : Elem) (name : String) : Bool :=
  match getAttr e name with
  | some s => !(s == "")
  | none => false

/-- Attribute value with `""` default (for building strings). -/
def attrD (e : Elem) (name : String) : String :=
  (getAttr e name).getD ""

/-! ## CSS engine model (`cssMatch`)

The browser's selector engine is an external collaborator; the model
covers the selector forms this code base constructs itself or that the
claims exercise: type selectors (`button`), `#id`, and the exact
attribute form `[name="value"]` that `qs` builds for snapshot refs. -/

/-- Parse the body of `[name="value"]` (everything after `[`). -/
def parseAttrSel (cs : List Char) : Option (String × String) :=
  let name := cs.takeWhile (· != '=')
  match cs.dropWhile (· != '=') with
  | '=' :: '"' :: rest =>
    let v := rest.takeWhile (· != '"')
    match rest.dropWhile (· != '"') with
    | ['"', ']'] => some (String.mk name, String.mk v)
    | _ => none
  | _ => none

/-- Does element `e` match the selector string `sel`? -/
def cssMatch (sel : String) (e : Elem) : Bool :=
  match sel.data with
  | '[' :: rest =>
    match parseAttrSel rest with
    | some (n, v) => getAttr e n == some v
    | none => false
  | '#' :: rest => getAttr e "id" == some (String.mk rest)
  | _ => e.tag == sel

/-! ## Deep queries (content-script.js `deepQueryOne` / `deepQueryAll`)

A "root set" is the list of top-level elements under a document or a
shadow root, so `document` and `shadowRoot` queries share one model.
`root.querySelectorAll(sel)` visits the light DOM only, in document
(pre)order; `deepQueryAll` first takes the light matches, then walks
every light-DOM element in document order and recurses into its shadow
root (content-script.js lines 26-48). -/

mutual
def matchesElem (sel : String) : Elem → List Elem
  | e@(.node _ _ _ _ cs _) =>
    (if cssMatch sel e then [e] else []) ++ matchesList sel cs
def matchesList (sel : String) : List Elem → List Elem
  | [] => []
  | e :: es => matchesElem sel e ++ matchesList sel es
end

/- All elements under the roots, light and shadow alike (helper for
stating "no node in the page …" hypotheses). -/
mutual
def allDeepElem : Elem → List Elem
  | e@(.node _ _ _ _ cs sh) => e :: (allDeepList cs ++ allDeepList sh)
def allDeepList : List Elem → List Elem
  | [] => []
  | e :: es => allDeepElem e ++ allDeepList es
end

/- Shadow pass of `deepQueryAll`: walk the light elements in document
order; each element contributes the deep query of its shadow root
(light matches inside the shadow first, then its nested shadows). -/
mutual
def shadowAllElem (sel : String) : Elem → List Elem
  | .node _ _ _ _ cs sh =>
    (matchesList sel sh ++ shadowAllList sel sh) ++ shadowAllList sel cs
def shadowAllList (sel : String) : List Elem → List Elem
  | [] => []
  | e :: es => shadowAllElem sel e ++ shadowAllList sel es
end

/-- content-script.js `deepQueryAll(root, selector)`. -/
def deepQueryAll (sel : String) (roots : List Elem) : List Elem :=
  matchesList sel roots ++ shadowAllList sel roots

/- Shadow pass of `deepQueryOne`: first hit wins. -/
mutual
def shadowOneElem (sel : String) : Elem → Option Elem
  | .node _ _ _ _ cs sh =>
    (match (matchesList sel sh).head? with
     | some r => some r
     | none => shadowOneList sel sh).orElse
      (fun _ => shadowOneList sel cs)
def shadowOneList (sel : String) : List Elem → Option Elem
  | [] => none
  | e :: es => (shadowOneElem sel e).orElse (fun _ => shadowOneList sel es)
end

/-- content-script.js `deepQueryOne(root, selector)`. -/
def deepQueryOne (sel : String) (roots : List Elem) : Option Elem :=
  match (matchesList sel roots).head? with
  | some e => some e
  | none => shadowOneList sel roots

/-! ## Unified element query (content-script.js `qs`, lines 54-97)

`qs` throws `Error` objects with distinct message strings; the embedding
returns `Except QsErr Elem` where `QsErr.message` renders exactly the
source's message for each throw site. -/

inductive QsErr : Type where
  | refNotFound (sel : String)
  | notFound (sel : String)
  | noTextMatch (sel : String) (tf : String)
  | indexOutOfRange (idx : Int) (found : Nat) (sel : String)
deriving DecidableEq

def QsErr.message : QsErr → String
  | .refNotFound sel =>
    "Ref not found: " ++ sel ++ " (run \x27snapshot\x27 first to assign refs)"
  | .notFound sel => "Element not found: " ++ sel
  | .noTextMatch sel tf =>
    "No element matching \"" ++ sel ++ "\" contains text \"" ++ tf ++ "\""
  | .indexOutOfRange idx found sel =>
    "Index " ++ toString idx ++ " out of range (found " ++ toString found ++
      " elements for: " ++ sel ++ ")"

/-- The stable-reference token grammar `/^e\d+$/`. -/
def isRefToken (s : String) : Bool :=
  match s.data with
  | 'e' :: rest => !rest.isEmpty && rest.all (·.isDigit)
  | _ => false

/-- The attribute selector `qs` builds for a ref lookup. -/
def refSelStr (sel : String) : String :=
  "[data-bctl-ref=\"" ++ sel ++ "\"]"

/-- Text-filter predicate: rendered text contains the filter,
case-insensitively. -/
def textMatches (tf : String) (el : Elem) : Bool :=
  jsIncludes (jsToLower el.text) (jsToLower tf)

/-- Candidate set of `qs` for a non-ref selector: light-DOM matches,
falling back to the deep query only when there are none
(content-script.js lines 67-72). -/
def qsCandidates (body : Elem) (sel : String) : List Elem :=
  let light := matchesList sel [body]
  if light.isEmpty then deepQueryAll sel [body] else light

/-- JS `const actual = index < 0 ? candidates.length + index : index`:
a negative index counts from the end of the candidate list. -/
def normIndex (i : Int) (n : Nat) : Int :=
  if i < 0 then (n : Int) + i else i

/-- Index selection step of `qs` (content-script.js lines 88-96); the
candidate list is non-empty at both call sites, passed as `c :: cs`. -/
def qsIndex (sel : String) (c : Elem) (cs : List Elem) (idx : Option Int) :
    Except QsErr Elem :=
  match idx with
  | some i =>
    let n := (c :: cs).length
    if normIndex i n < 0 ∨ (n : Int) ≤ normIndex i n then
      .error (.indexOutOfRange i n sel)
    else .ok ((c :: cs).getD (normIndex i n).toNat c)
  | none => .ok c

/-- content-script.js `qs(selector, index, textFilter)`. -/
def qs (body : Elem) (sel : String) (idx : Option Int) (tf : Option String) :
    Except QsErr Elem :=
  if sel = "" then .ok body
  else if isRefToken sel then
    match deepQueryOne (refSelStr sel) [body] with
    | some el => .ok el
    | none => .error (.refNotFound sel)
  else
    match qsCandidates body sel with
    | [] => .error (.notFound sel)
    | c :: cs =>
      match tf with
      | none => qsIndex sel c cs idx
      | some t =>
        if t = "" then qsIndex sel c cs idx
        else
          match (c :: cs).filter (textMatches t) with
          | [] => .error (.noTextMatch sel t)
          | c2 :: cs2 => qsIndex sel c2 cs2 idx

/-! ## Error classification and auto-retry policy
(background.js `isRetryableError` / `classifyActionError` /
`shouldRetryAction` / `executeActionWithPolicy`, lines 448-540) -/

structure ErrClassification where
  code : String
  retriable : Bool
  hint : String
deriving DecidableEq

def isRetryableError (msg : String) : Bool :=
  let m := jsToLower msg
  jsIncludes m "no active tab" || jsIncludes m "no tab with id" ||
    jsIncludes m "content script returned no result"

def classifyActionError (action : String) (msg : String) : ErrClassification :=
  let m := jsToLower msg
  if jsIncludes m "ref not found" then
    ⟨"STALE_REF", true,
      "Element refs may be stale after UI updates. Re-run `bctl snapshot` and retry."⟩
  else if jsIncludes m "timeout" || jsIncludes m ":timeout]" then
    ⟨"TIMEOUT", true, "Retry the action or increase wait timeout."⟩
  else if jsIncludes m "no active tab" || jsIncludes m "no tab with id" then
    ⟨"TAB_CONTEXT", true, "Refresh tab context by running tabs/status and retry."⟩
  else if jsIncludes m "element not found" ||
      (jsIncludes m "index" && jsIncludes m "out of range") then
    ⟨"SELECTOR", false, "Re-run snapshot/select and use a stable ref or selector."⟩
  else if action = "upload" || action = "eval" then
    ⟨"DEBUGGER", false, "Close DevTools and retry."⟩
  else
    ⟨"ACTION_FAILED", isRetryableError msg, "Check command params and retry."⟩

def shouldRetryAction (action : String) : Bool :=
  action == "click" || action == "hover" || action == "type" ||
    action == "snapshot" || action == "select" || action == "text" ||
    action == "attr" || action == "count" || action == "set-field" ||
    action == "submit-and-assert"

/-- background.js `executeActionWithPolicy`: run the action once; on
failure, if the action is in the retry set and the error matches the
transient predicate, run it exactly once more. `run n` is the outcome of
attempt `n` (the action itself is an effect on the page, abstracted);
the returned `Nat` is the number of attempts actually executed. -/
def executeActionWithPolicy (action : String) (run : Nat → Except String String) :
    Except String String × Nat :=
  match run 0 with
  | .ok v => (.ok v, 1)
  | .error e =>
    if shouldRetryAction action && isRetryableError e then (run 1, 2)
    else (.error e, 1)

/-! ## WebSocket reconnection back-off
(background.js `connect` / `immediateReconnect`, lines 33-35, 52-55, 85-98) -/

def MIN_RECONNECT_DELAY : Nat := 1000

def MAX_RECONNECT_DELAY : Nat := 30000

inductive WsEvent : Type where
  | wsOpen
  | wsClose
deriving DecidableEq

/-- One transition of the connection state machine on the back-off
delay: `onopen` resets to the minimum; `onclose` (or creation failure)
schedules a reconnect after the current delay (second component) and
then doubles the delay, capped. -/
def wsStep (d : Nat) : WsEvent → Nat × Option Nat
  | .wsOpen => (MIN_RECONNECT_DELAY, none)
  | .wsClose => (min (d * 2) MAX_RECONNECT_DELAY, some d)

def wsRun (d : Nat) : List WsEvent → Nat
  | [] => d
  | e :: es => wsRun (wsStep d e).1 es

/-! ## Batched command execution
(content-script.js `contentScriptHandler` main loop, lines 815-1000)

Each loop iteration executes one operation against the page and pushes
exactly one result; on a thrown error — and on the explicit
failure-push-then-`break` paths (actionability failure, wait timeout) —
it pushes a failure result and stops. The per-operation execution is
abstracted as `step : σ → κ → σ × Except String String` (page state in,
page state out plus outcome). -/

inductive CSRes : Type where
  | ok (data : String)
  | fail (err : String)
deriving DecidableEq

def CSRes.success : CSRes → Bool
  | .ok _ => true
  | .fail _ => false

def contentScriptLoop {σ κ : Type} (step : σ → κ → σ × Except String String) :
    σ → List κ → σ × List CSRes
  | s, [] => (s, [])
  | s, c :: rest =>
    match step s c with
    | (s2, .ok d) =>
      let r := contentScriptLoop step s2 rest
      (r.1, .ok d :: r.2)
    | (s2, .error e) => (s2, [.fail e])

/-- Page state after unconditionally executing the first `n` commands. -/
def stateAfter {σ κ : Type} (step : σ → κ → σ × Except String String) (s : σ)
    (cmds : List κ) (n : Nat) : σ :=
  (cmds.take n).foldl (fun t c => (step t c).1) s

/-- Outcome of command `i` when run in the state produced by the first
`i` commands (the outcome the sequential loop observes at step `i`). -/
def outcomeAt {σ κ : Type} (step : σ → κ → σ × Except String String) (s : σ)
    (cmds : List κ) (i : Nat) : Option (Except String String) :=
  (cmds.get? i).map (fun c => (step (stateAfter step s cmds i) c).2)

/-! ## Click/double-click event sequences
(content-script.js `dispatchClickEvents` lines 212-236 and the
`dblclick` case lines 583-607; click.js `clickHandler` lines 296-323) -/

inductive UiEvent : Type where
  | pointerEv (name : String)
  | mouseEv (name : String)
  | nativeClick
deriving DecidableEq

/-- content-script.js `dispatchClickEvents`: pointer/mouse sequence then
a single native `el.click()`; no synthetic `MouseEvent("click")`. -/
def dispatchClickEvents : List UiEvent :=
  [.pointerEv "pointerdown", .mouseEv "mousedown", .pointerEv "pointerup",
    .mouseEv "mouseup", .nativeClick]

/-- click.js `clickHandler` success path, same dispatch sequence. -/
def clickHandlerEvents : List UiEvent :=
  [.pointerEv "pointerdown", .mouseEv "mousedown", .pointerEv "pointerup",
    .mouseEv "mouseup", .nativeClick]

/-- content-script.js `executeOp` `dblclick` case: a single synthetic
`MouseEvent("dblclick")` and nothing else. -/
def dblclickEvents : List UiEvent :=
  [.mouseEv "dblclick"]

/-! ## Click actionability retry loop (click.js `clickHandler`,
lines 199-208 and 228-334)

Per attempt the page is sampled: visibility, disabled state, bounding
box stability, the center point after scrolling, and what
`document.elementFromPoint` returns there (relative to the target).
`ClickAttempt` records one such sample; the loop consumes the sample
sequence exactly as the source's `for` loop does. -/

inductive HitEl : Type where
  | noEl
  | targetOrDescendant
  | ancestor
  | other (tag : String) (className : String)
deriving DecidableEq

/-- The obscured-element reason built by click.js `hitTest`: the tag of
the element found at the point, plus its first class when present. -/
def obscuredReason (tag cls : String) : String :=
  "obscured by <" ++ tag ++
    (if cls == "" then ""
     else "." ++ String.mk (cls.data.takeWhile (· != ' '))) ++ ">"

/-- click.js `hitTest`: `none` = pass; `some r` = fail with reason `r`. -/
def hitTestReason : HitEl → Option String
  | .noEl => some "no element at coordinates"
  | .targetOrDescendant => none
  | .ancestor => none
  | .other tag cls => some (obscuredReason tag cls)

structure ClickAttempt where
  visible : Bool
  disabled : Bool
  stable : Bool
  cx : Int
  cy : Int
  hit : HitEl
deriving DecidableEq

def RETRY_DELAYS : List Nat := [0, 20, 100, 100, 500, 500, 500]

inductive ClickRes : Type where
  | clickPerformed (cx cy : Int)
  | failure (error : String) (cx cy : Int)
deriving DecidableEq

def clickFailMsg (sel reason : String) : String :=
  "click: actionability check failed for \"" ++ sel ++ "\": " ++ reason

/-- The retry loop body: checks run in source order (visible, enabled,
stable, then center computation and hit test); `lastReason`/`lastCx`/
`lastCy` thread through exactly as in the source (the center is only
recorded once an attempt reaches step 5). -/
def clickLoop (sel : String) :
    List ClickAttempt → String → Int → Int → ClickRes
  | [], reason, x, y => .failure (clickFailMsg sel reason) x y
  | a :: rest, _, x, y =>
    if !a.visible then clickLoop sel rest "element not visible" x y
    else if a.disabled then clickLoop sel rest "element is disabled" x y
    else if !a.stable then
      clickLoop sel rest "element is not stable (animating)" x y
    else
      match hitTestReason a.hit with
      | none => .clickPerformed a.cx a.cy
      | some r =>
        clickLoop sel rest
          ("element does not receive pointer events: " ++ r) a.cx a.cy

/-- click.js actionability loop over the fixed `RETRY_DELAYS` schedule,
starting from `lastReason = ""`, `lastCx = lastCy = 0`. -/
def clickActionability (sel : String) (attempts : List ClickAttempt) : ClickRes :=
  clickLoop sel (attempts.take RETRY_DELAYS.length) "" 0 0

/-! ## check / uncheck (content-script.js `executeOp`, lines 616-636)

The target's observable state: `native` (input of type checkbox/radio),
its `checked` property, and the `aria-checked` attribute. `click` is
the effect of `el.click()` on that state (browser-native toggle for
checkboxes; the page's handler for ARIA widgets) — an external
collaborator, passed as a function. -/

structure CheckTarget where
  native : Bool
  checked : Bool
  ariaChecked : Option String
deriving DecidableEq

/-- The state the op reads: `el.checked` for native controls,
`el.getAttribute("aria-checked") === "true"` otherwise. -/
def readChecked (s : CheckTarget) : Bool :=
  if s.native then s.checked else s.ariaChecked == some "true"

structure CheckOpResult where
  state : CheckTarget
  reported : Bool
  didClick : Bool
deriving DecidableEq

/-- `executeOp` for `check`/`uncheck` (`shouldCheck = (op === "check")`):
click only when the current state differs from the requested one, then
report the state re-read after the (possible) click. -/
def checkUncheckOp (click : CheckTarget → CheckTarget) (shouldCheck : Bool)
    (s : CheckTarget) : CheckOpResult :=
  if readChecked s != shouldCheck then
    let s2 := click s
    ⟨s2, readChecked s2, true⟩
  else ⟨s, readChecked s, false⟩

/-! ## Theorems -/

theorem wsRun_mem_range : ∀ (evs : List WsEvent) (d : Nat),
    MIN_RECONNECT_DELAY ≤ d → d ≤ MAX_RECONNECT_DELAY →
    MIN_RECONNECT_DELAY ≤ wsRun d evs ∧ wsRun d evs ≤ MAX_RECONNECT_DELAY := by
  intro evs
  induction evs with
  | nil => intro d h1 h2; exact ⟨h1, h2⟩
  | cons e es ih =>
    intro d h1 h2
    simp only [wsRun]
    cases e with
    | wsOpen =>
      refine ih _ (le_refl _) ?_
      show MIN_RECONNECT_DELAY ≤ MAX_RECONNECT_DELAY
      decide
    | wsClose =>
      refine ih _ ?_ ?_
      · have hd : MIN_RECONNECT_DELAY ≤ d * 2 := le_trans h1 (by omega)
        exact le_min hd (by decide)
      · exact min_le_right _ _

/-- C8: the reconnection back-off delay starts at the minimum (1000 ms);
on every close a reconnect is scheduled after the current delay and the
delay then doubles, capped at 30000 ms; on every open it resets to the
minimum; along any event sequence the delay stays within
[minimum, ceiling]. -/
theorem C8_backoff_invariant :
    MIN_RECONNECT_DELAY = 1000 ∧ MAX_RECONNECT_DELAY = 30000 ∧
    (∀ evs : List WsEvent,
      MIN_RECONNECT_DELAY ≤ wsRun MIN_RECONNECT_DELAY evs ∧
        wsRun MIN_RECONNECT_DELAY evs ≤ MAX_RECONNECT_DELAY) ∧
    (∀ d : Nat,
      wsStep d WsEvent.wsClose = (min (d * 2) MAX_RECONNECT_DELAY, some d)) ∧
    (∀ d : Nat, wsStep d WsEvent.wsOpen = (MIN_RECONNECT_DELAY, none)) := by
  refine ⟨rfl, rfl, ?_, fun d => rfl, fun d => rfl⟩
  intro evs
  exact wsRun_mem_range evs _ (le_refl _) (by decide)

/-- C6 counterexample: the double-click primitive dispatches only a
single synthetic `dblclick` event — no pointer-down/mouse-down/
pointer-up/mouse-up sequence and no native activation — contradicting
the claim that every double-click dispatches that sequence and then
invokes the native activation once. -/
theorem C6_counterexample :
    dblclickEvents = [UiEvent.mouseEv "dblclick"] ∧
    dblclickEvents.count (UiEvent.pointerEv "pointerdown") = 0 ∧
    dblclickEvents.count (UiEvent.mouseEv "mousedown") = 0 ∧
    dblclickEvents.count UiEvent.nativeClick = 0 := by
  refine ⟨rfl, ?_, ?_, ?_⟩ <;> decide

/-- C6 (amended): both single-click paths (content-script
`dispatchClickEvents` and the MAIN-world `clickHandler`) dispatch
pointer-down, mouse-down, pointer-up, mouse-up and then exactly one
native activation, never an additional synthetic click event; the
double-click primitive instead dispatches a single synthetic `dblclick`
event with no pointer/mouse sequence and no native activation. -/
theorem C6_click_event_sequences :
    dispatchClickEvents =
      [UiEvent.pointerEv "pointerdown", UiEvent.mouseEv "mousedown",
        UiEvent.pointerEv "pointerup", UiEvent.mouseEv "mouseup",
        UiEvent.nativeClick] ∧
    dispatchClickEvents.count UiEvent.nativeClick = 1 ∧
    UiEvent.mouseEv "click" ∉ dispatchClickEvents ∧
    clickHandlerEvents = dispatchClickEvents ∧
    UiEvent.mouseEv "click" ∉ clickHandlerEvents ∧
    dblclickEvents = [UiEvent.mouseEv "dblclick"] ∧
    UiEvent.nativeClick ∉ dblclickEvents := by
  refine ⟨rfl, ?_, ?_, rfl, ?_, rfl, ?_⟩ <;> decide

/-- C7: `check`/`uncheck` are idempotent: when the read state already
equals the requested state no click is performed and the state is
untouched; and whenever the first command leaves the read state equal to
the requested one, re-issuing the same command performs no click, leaves
the state untouched, and both commands report the same checked value. -/
theorem C7_check_uncheck_idempotent (click : CheckTarget → CheckTarget)
    (b : Bool) (s : CheckTarget) :
    (readChecked s = b → checkUncheckOp click b s = ⟨s, b, false⟩) ∧
    (readChecked (checkUncheckOp click b s).state = b →
      checkUncheckOp click b (checkUncheckOp click b s).state =
        ⟨(checkUncheckOp click b s).state, b, false⟩ ∧
      (checkUncheckOp click b s).reported = b) := by
  have hgen : ∀ s' : CheckTarget, readChecked s' = b →
      checkUncheckOp click b s' = ⟨s', b, false⟩ := by
    intro s' h'
    simp [checkUncheckOp, h']
  refine ⟨hgen s, fun h => ⟨hgen _ h, ?_⟩⟩
  have hrep : (checkUncheckOp click b s).reported =
      readChecked (checkUncheckOp click b s).state := by
    simp only [checkUncheckOp]
    split <;> rfl
  rw [hrep, h]

/-- Browser-native activation of a checkbox/radio: `el.click()` toggles
`checked` (external collaborator behaviour, used as the witness's
concrete `click`). -/
def nativeToggleClick (s : CheckTarget) : CheckTarget :=
  if s.native then { s with checked := !s.checked } else s

theorem C7_check_uncheck_idempotent_witness :
    checkUncheckOp nativeToggleClick true ⟨true, true, none⟩ =
      ⟨⟨true, true, none⟩, true, false⟩ ∧
    checkUncheckOp nativeToggleClick true
        (checkUncheckOp nativeToggleClick true ⟨true, true, none⟩).state =
      ⟨(checkUncheckOp nativeToggleClick true ⟨true, true, none⟩).state,
        true, false⟩ := by
  have h := C7_check_uncheck_idempotent nativeToggleClick true ⟨true, true, none⟩
  exact ⟨h.1 rfl, (h.2 rfl).1⟩

/-- A page with a `button` in the light DOM and another `button` inside
a shadow subtree (C4's scenario: matches in both worlds). -/
def exButtonShadow : Elem :=
  .node "body" [] "" true
    [.node "button" [] "light" true [] [],
      .node "div" [] "" true [] [.node "button" [] "shadowed" true [] []]] []

/-- C4 counterexample: on a page where `button` matches once in the
light DOM and once inside a shadow subtree, the deep (union) query sees
both, but resolution uses only the light match: index 1 — which the
claimed union semantics would resolve to the shadow match — fails with
an index-out-of-range error reporting only 1 candidate. -/
theorem C4_counterexample :
    (deepQueryAll "button" [exButtonShadow]).length = 2 ∧
    (matchesList "button" [exButtonShadow]).length = 1 ∧
    qs exButtonShadow "button" (some 1) none =
      .error (.indexOutOfRange 1 1 "button") := by
  refine ⟨rfl, rfl, rfl⟩

/-- C4 (amended): for a non-reference selector, resolution uses the
light-DOM result set whenever it is non-empty; shadow subtrees are
searched only as a fallback when the light DOM has zero matches, in
which case the deep query unions light and shadow results with
light-DOM matches ordered first. Shadow matches are therefore not
reachable when the light DOM also has matches. -/
theorem C4_light_dom_first_fallback (body : Elem) (sel : String) :
    (matchesList sel [body] ≠ [] →
      qsCandidates body sel = matchesList sel [body]) ∧
    (matchesList sel [body] = [] →
      qsCandidates body sel = deepQueryAll sel [body]) ∧
    deepQueryAll sel [body] =
      matchesList sel [body] ++ shadowAllList sel [body] := by
  refine ⟨?_, ?_, rfl⟩
  · intro h
    simp [qsCandidates, List.isEmpty_iff, h]
  · intro h
    simp [qsCandidates, h]

theorem C4_light_dom_first_fallback_witness :
    matchesList "button" [exButtonShadow] ≠ [] ∧
    qsCandidates exButtonShadow "button" =
      matchesList "button" [exButtonShadow] := by
  have hne : matchesList "button" [exButtonShadow] ≠ [] := by
    intro h
    exact List.cons_ne_nil _ _ h
  exact ⟨hne, (C4_light_dom_first_fallback exButtonShadow "button").1 hne⟩

/-- C9 counterexample: the error message
`"Element not found: content script returned no result"` (reachable:
`content script returned no result` is a valid CSS type-selector chain
with zero matches) is classified `SELECTOR` and not retriable, yet the
dispatch layer runs a second attempt for a `click` that fails with it —
so "SELECTOR errors are never auto-retried" is false as stated. -/
theorem C9_counterexample :
    (classifyActionError "click"
      "Element not found: content script returned no result").code =
        "SELECTOR" ∧
    (classifyActionError "click"
      "Element not found: content script returned no result").retriable =
        false ∧
    (executeActionWithPolicy "click" (fun n =>
      if n = 0 then
        .error "Element not found: content script returned no result"
      else .ok "clicked")).2 = 2 := by
  refine ⟨rfl, rfl, rfl⟩

/-- C9 (amended): the dispatch layer auto-retries a failed action at
most once, and only when the action is in the fixed retry set (click,
hover, type, snapshot, select, text, attr, count, set-field,
submit-and-assert) and the error matches the transient predicate
(`no active tab` / `no tab with id` / `content script returned no
result`). `DEBUGGER`-classified errors are never auto-retried; a
`SELECTOR`-classified error is not auto-retried unless its message
itself embeds the transient phrase `content script returned no result`;
and every auto-retried error is classified retriable or is such a
pathological `SELECTOR` case. -/
theorem C9_retry_policy (action msg : String)
    (run : Nat → Except String String) :
    (executeActionWithPolicy action run).2 ≤ 2 ∧
    ((executeActionWithPolicy action run).2 = 2 →
      shouldRetryAction action = true ∧
      ∃ e, run 0 = .error e ∧ isRetryableError e = true) ∧
    ((classifyActionError action msg).code = "DEBUGGER" →
      shouldRetryAction action = false) ∧
    ((classifyActionError action msg).code = "SELECTOR" →
      jsIncludes (jsToLower msg) "content script returned no result" = false →
      isRetryableError msg = false) ∧
    (shouldRetryAction action = true → isRetryableError msg = true →
      (classifyActionError action msg).retriable = true ∨
        (classifyActionError action msg).code = "SELECTOR") := by
  refine ⟨?_, ?_, ?_, ?_, ?_⟩
  · rcases hr : run 0 with e | v
    · simp only [executeActionWithPolicy, hr]
      split
      · exact le_refl 2
      · exact Nat.le_succ 1
    · simp [executeActionWithPolicy, hr]
  · intro h2
    rcases hr : run 0 with e | v
    · simp only [executeActionWithPolicy, hr] at h2
      by_cases hc : (shouldRetryAction action && isRetryableError e) = true
      · rcases Bool.and_eq_true .. |>.mp hc with ⟨h1, h2'⟩
        exact ⟨h1, e, rfl, h2'⟩
      · simp [hc] at h2
    · simp [executeActionWithPolicy, hr] at h2
  · intro hdbg
    simp only [classifyActionError] at hdbg
    by_cases c1 : jsIncludes (jsToLower msg) "ref not found" = true
    · simp [c1] at hdbg
    · by_cases c2 : (jsIncludes (jsToLower msg) "timeout" ||
          jsIncludes (jsToLower msg) ":timeout]") = true
      · simp [c1, c2] at hdbg
      · by_cases c3 : (jsIncludes (jsToLower msg) "no active tab" ||
            jsIncludes (jsToLower msg) "no tab with id") = true
        · simp [c1, c2, c3] at hdbg
        · by_cases c4 : (jsIncludes (jsToLower msg) "element not found" ||
              (jsIncludes (jsToLower msg) "index" &&
                jsIncludes (jsToLower msg) "out of range")) = true
          · simp [c1, c2, c3, c4] at hdbg
          · by_cases c5 : (decide (action = "upload") ||
                decide (action = "eval")) = true
            · simp only [Bool.or_eq_true, decide_eq_true_eq] at c5
              rcases c5 with h | h <;> subst h <;> rfl
            · simp [c1, c2, c3, c4, c5] at hdbg
  · intro hsel htrans
    simp only [classifyActionError] at hsel
    by_cases c1 : jsIncludes (jsToLower msg) "ref not found" = true
    · simp [c1] at hsel
    · by_cases c2 : (jsIncludes (jsToLower msg) "timeout" ||
          jsIncludes (jsToLower msg) ":timeout]") = true
      · simp [c1, c2] at hsel
      · by_cases c3 : (jsIncludes (jsToLower msg) "no active tab" ||
            jsIncludes (jsToLower msg) "no tab with id") = true
        · simp [c1, c2, c3] at hsel
        · simp only [Bool.or_eq_true, not_or, Bool.not_eq_true] at c3
          simp only [isRetryableError, Bool.or_eq_false_iff]
          exact ⟨⟨c3.1, c3.2⟩, htrans⟩
  · intro hset hretr
    simp only [classifyActionError]
    by_cases c1 : jsIncludes (jsToLower msg) "ref not found" = true
    · simp [c1]
    · by_cases c2 : (jsIncludes (jsToLower msg) "timeout" ||
          jsIncludes (jsToLower msg) ":timeout]") = true
      · simp [c1, c2]
      · by_cases c3 : (jsIncludes (jsToLower msg) "no active tab" ||
            jsIncludes (jsToLower msg) "no tab with id") = true
        · simp [c1, c2, c3]
        · by_cases c4 : (jsIncludes (jsToLower msg) "element not found" ||
              (jsIncludes (jsToLower msg) "index" &&
                jsIncludes (jsToLower msg) "out of range")) = true
          · simp [c1, c2, c3, c4]
          · by_cases c5 : (decide (action = "upload") ||
                decide (action = "eval")) = true
            · simp only [Bool.or_eq_true, decide_eq_true_eq] at c5
              rcases c5 with h | h <;> subst h <;> simp [shouldRetryAction] at hset
            · simp [c1, c2, c3, c4, c5, hretr]

theorem C9_retry_policy_witness :
    shouldRetryAction "click" = true ∧
    isRetryableError "no active tab" = true ∧
    (executeActionWithPolicy "click"
      (fun _ => Except.error "no active tab")).2 = 2 ∧
    ((classifyActionError "click" "no active tab").retriable = true ∨
      (classifyActionError "click" "no active tab").code = "SELECTOR") := by
  have h := C9_retry_policy "click" "no active tab"
    (fun _ => Except.error "no active tab")
  refine ⟨rfl, rfl, rfl, h.2.2.2.2 rfl rfl⟩

theorem outcomeAt_zero {σ κ : Type} (step : σ → κ → σ × Except String String)
    (s : σ) (c : κ) (cmds : List κ) :
    outcomeAt step s (c :: cmds) 0 = some (step s c).2 := by
  simp [outcomeAt, stateAfter]

theorem outcomeAt_succ {σ κ : Type} (step : σ → κ → σ × Except String String)
    (s : σ) (c : κ) (cmds : List κ) (i : Nat) :
    outcomeAt step s (c :: cmds) (i + 1) = outcomeAt step (step s c).1 cmds i := by
  simp [outcomeAt, stateAfter]

theorem stateAfter_cons_succ {σ κ : Type} (step : σ → κ → σ × Except String String)
    (s : σ) (c : κ) (cmds : List κ) (n : Nat) :
    stateAfter step s (c :: cmds) (n + 1) = stateAfter step (step s c).1 cmds n := by
  simp [stateAfter]

theorem contentLoop_firstFail {σ κ : Type}
    (step : σ → κ → σ × Except String String) :
    ∀ (cmds : List κ) (s : σ) (j : Nat) (e : String),
      outcomeAt step s cmds j = some (.error e) →
      (∀ i, i < j → ∃ d, outcomeAt step s cmds i = some (.ok d)) →
      (contentScriptLoop step s cmds).2.length = j + 1 ∧
      (∀ i, i < j → ∃ d,
        (contentScriptLoop step s cmds).2.get? i = some (.ok d)) ∧
      (contentScriptLoop step s cmds).2.get? j = some (.fail e) ∧
      (contentScriptLoop step s cmds).1 = stateAfter step s cmds (j + 1) := by
  intro cmds
  induction cmds with
  | nil =>
    intro s j e hj _
    simp [outcomeAt] at hj
  | cons c rest ih =>
    intro s j e hj hpre
    cases j with
    | zero =>
      rw [outcomeAt_zero] at hj
      have hstep : (step s c).2 = .error e := by simpa using hj
      rcases hsc : step s c with ⟨s2, out⟩
      have hout : out = .error e := by rw [hsc] at hstep; exact hstep
      subst hout
      simp only [contentScriptLoop, hsc]
      refine ⟨rfl, fun i hi => absurd hi (Nat.not_lt_zero i), rfl, ?_⟩
      simp [stateAfter, hsc]
    | succ j' =>
      obtain ⟨d0, h0⟩ := hpre 0 (Nat.succ_pos j')
      rw [outcomeAt_zero] at h0
      have hd0 : (step s c).2 = .ok d0 := by simpa using h0
      rcases hsc : step s c with ⟨s2, out⟩
      have hout : out = .ok d0 := by rw [hsc] at hd0; exact hd0
      subst hout
      have hj' : outcomeAt step s2 rest j' = some (.error e) := by
        rw [outcomeAt_succ, hsc] at hj
        exact hj
      have hpre' : ∀ i, i < j' → ∃ d,
          outcomeAt step s2 rest i = some (.ok d) := by
        intro i hi
        have := hpre (i + 1) (Nat.succ_lt_succ hi)
        rwa [outcomeAt_succ, hsc] at this
      have ihres := ih s2 j' e hj' hpre'
      simp only [contentScriptLoop, hsc]
      refine ⟨by simp [ihres.1], ?_, ?_, ?_⟩
      · intro i hi
        cases i with
        | zero => exact ⟨d0, rfl⟩
        | succ i' =>
          have := ihres.2.1 i' (Nat.lt_of_succ_lt_succ hi)
          simpa using this
      · simpa using ihres.2.2.1
      · rw [stateAfter_cons_succ, hsc]
        exact ihres.2.2.2

theorem contentLoop_allOk {σ κ : Type}
    (step : σ → κ → σ × Except String String) :
    ∀ (cmds : List κ) (s : σ),
      (∀ i, i < cmds.length → ∃ d, outcomeAt step s cmds i = some (.ok d)) →
      (contentScriptLoop step s cmds).2.length = cmds.length ∧
      (∀ i, i < cmds.length → ∃ d,
        (contentScriptLoop step s cmds).2.get? i = some (.ok d)) ∧
      (contentScriptLoop step s cmds).1 = stateAfter step s cmds cmds.length := by
  intro cmds
  induction cmds with
  | nil =>
    intro s _
    exact ⟨rfl, fun i hi => absurd hi (Nat.not_lt_zero i), rfl⟩
  | cons c rest ih =>
    intro s hall
    obtain ⟨d0, h0⟩ := hall 0 (Nat.succ_pos _)
    rw [outcomeAt_zero] at h0
    have hd0 : (step s c).2 = .ok d0 := by simpa using h0
    rcases hsc : step s c with ⟨s2, out⟩
    have hout : out = .ok d0 := by rw [hsc] at hd0; exact hd0
    subst hout
    have hall' : ∀ i, i < rest.length → ∃ d,
        outcomeAt step s2 rest i = some (.ok d) := by
      intro i hi
      have := hall (i + 1) (Nat.succ_lt_succ hi)
      rwa [outcomeAt_succ, hsc] at this
    have ihres := ih s2 hall'
    simp only [contentScriptLoop, hsc]
    refine ⟨by simp [ihres.1], ?_, ?_⟩
    · intro i hi
      cases i with
      | zero => exact ⟨d0, rfl⟩
      | succ i' =>
        have := ihres.2.1 i' (Nat.lt_of_succ_lt_succ hi)
        simpa using this
    · rw [List.length_cons, stateAfter_cons_succ, hsc]
      exact ihres.2.2

/-- C1: the batched executor is fail-fast. If the 1-based operation
`k = j + 1` is the first to fail (all earlier outcomes succeed), the
result list has exactly `j + 1` entries, entries before position `j`
are successes, entry `j` is the failure, and the final page state is
the state after executing only the first `j + 1` operations (nothing
after the failing one runs). If no operation fails, there are exactly
`N` success entries in request order and every operation executed. -/
theorem C1_batch_fail_fast {σ κ : Type}
    (step : σ → κ → σ × Except String String) (s : σ) (cmds : List κ) :
    (∀ (j : Nat) (e : String),
      outcomeAt step s cmds j = some (.error e) →
      (∀ i, i < j → ∃ d, outcomeAt step s cmds i = some (.ok d)) →
      (contentScriptLoop step s cmds).2.length = j + 1 ∧
      (∀ i, i < j → ∃ d,
        (contentScriptLoop step s cmds).2.get? i = some (.ok d)) ∧
      (contentScriptLoop step s cmds).2.get? j = some (.fail e) ∧
      (contentScriptLoop step s cmds).1 = stateAfter step s cmds (j + 1)) ∧
    ((∀ i, i < cmds.length → ∃ d, outcomeAt step s cmds i = some (.ok d)) →
      (contentScriptLoop step s cmds).2.length = cmds.length ∧
      (∀ i, i < cmds.length → ∃ d,
        (contentScriptLoop step s cmds).2.get? i = some (.ok d)) ∧
      (contentScriptLoop step s cmds).1 = stateAfter step s cmds cmds.length) :=
  ⟨fun j e hj hpre => contentLoop_firstFail step cmds s j e hj hpre,
    fun hall => contentLoop_allOk step cmds s hall⟩

/-- Concrete step function for the C1 witness: the page state counts
executed operations; command `1` fails, others succeed. -/
def exBatchStep (s : Nat) (c : Nat) : Nat × Except String String :=
  (s + 1, if c = 1 then .error "boom" else .ok "done")

theorem C1_batch_fail_fast_witness :
    (contentScriptLoop exBatchStep 0 [0, 1, 0]).2.length = 2 ∧
    (contentScriptLoop exBatchStep 0 [0, 1, 0]).2.get? 1 =
      some (.fail "boom") ∧
    (contentScriptLoop exBatchStep 0 [0, 1, 0]).1 = 2 := by
  have hpre : ∀ i, i < 1 → ∃ d,
      outcomeAt exBatchStep 0 [0, 1, 0] i = some (.ok d) := by
    intro i hi
    have hz : i = 0 := Nat.lt_one_iff.mp hi
    subst hz
    exact ⟨"done", rfl⟩
  have h := (C1_batch_fail_fast exBatchStep 0 [0, 1, 0]).1 1 "boom" rfl hpre
  refine ⟨h.1, h.2.2.1, ?_⟩
  rw [h.2.2.2]
  rfl

theorem listIsPrefix_self_append : ∀ (l r : List Char),
    listIsPrefix l (l ++ r) = true
  | [], _ => rfl
  | a :: as, r => by
    simp [listIsPrefix, listIsPrefix_self_append as r]

theorem listIncludes_of_prefix {n l : List Char}
    (h : listIsPrefix n l = true) : listIncludes n l = true := by
  cases l with
  | nil =>
    cases n with
    | nil => rfl
    | cons a as => simp [listIsPrefix] at h
  | cons c cs => simp [listIncludes, h]

theorem clickLoop_all_obscured (sel t c : String) :
    ∀ (attempts : List ClickAttempt), attempts ≠ [] →
      (∀ a ∈ attempts, a.visible = true ∧ a.disabled = false ∧
        a.stable = true ∧ a.hit = HitEl.other t c) →
      ∀ (r : String) (x y : Int),
        ∃ la, attempts.getLast? = some la ∧
          clickLoop sel attempts r x y =
            .failure (clickFailMsg sel
              ("element does not receive pointer events: " ++
                obscuredReason t c)) la.cx la.cy := by
  intro attempts
  induction attempts with
  | nil => intro h; exact absurd rfl h
  | cons a rest ih =>
    intro _ hall r x y
    obtain ⟨hv, hd, hs, hh⟩ := hall a (List.mem_cons_self a rest)
    have hstep : clickLoop sel (a :: rest) r x y =
        clickLoop sel rest
          ("element does not receive pointer events: " ++ obscuredReason t c)
          a.cx a.cy := by
      simp only [clickLoop, hv, hd, hs, hh, hitTestReason, Bool.not_true,
        Bool.false_eq_true, if_false]
    cases rest with
    | nil =>
      refine ⟨a, rfl, ?_⟩
      rw [hstep]
      rfl
    | cons b rest' =>
      obtain ⟨la, hlast, hres⟩ := ih (List.cons_ne_nil b rest')
        (fun a' ha' => hall a' (List.mem_cons_of_mem a ha')) r a.cx a.cy
      refine ⟨la, ?_, ?_⟩
      · rw [List.getLast?_cons_cons]
        exact hlast
      · rw [hstep]
        obtain ⟨la2, hlast2, hres2⟩ := ih (List.cons_ne_nil b rest')
          (fun a' ha' => hall a' (List.mem_cons_of_mem a ha'))
          ("element does not receive pointer events: " ++ obscuredReason t c)
          a.cx a.cy
        rw [hres2]
        rw [hlast2] at hlast
        rw [Option.some.inj hlast]

/-- C5: when every actionability attempt passes the visible/enabled/
stable checks but the hit-test finds an unrelated element (tag `t`,
class `c`) at the center, the exhausted click returns a failure whose
reason names the obscuring element's tag, carrying the last computed
center coordinates; the failure message contains "obscured" — the
condition `doClick` tests to trigger the trusted-input (CDP) fallback. -/
theorem C5_obscured_failure (sel t c : String)
    (attempts : List ClickAttempt)
    (hlen : attempts.length = RETRY_DELAYS.length)
    (hall : ∀ a ∈ attempts, a.visible = true ∧ a.disabled = false ∧
      a.stable = true ∧ a.hit = HitEl.other t c) :
    ∃ la, attempts.getLast? = some la ∧
      clickActionability sel attempts =
        .failure (clickFailMsg sel
          ("element does not receive pointer events: " ++ obscuredReason t c))
          la.cx la.cy ∧
      jsIncludes (clickFailMsg sel
        ("element does not receive pointer events: " ++ obscuredReason t c))
        "obscured" = true := by
  have hne : attempts ≠ [] := by
    intro h
    rw [h] at hlen
    simp [RETRY_DELAYS] at hlen
  have htake : attempts.take RETRY_DELAYS.length = attempts :=
    List.take_of_length_le (le_of_eq hlen)
  obtain ⟨la, hlast, hres⟩ := clickLoop_all_obscured sel t c attempts hne hall "" 0 0
  refine ⟨la, hlast, ?_, ?_⟩
  · simp only [clickActionability, htake]
    exact hres
  · simp only [jsIncludes, clickFailMsg, obscuredReason, String.data_append,
      List.append_assoc]
    apply listIncludes_append_right
    apply listIncludes_append_right
    apply listIncludes_append_right
    apply listIncludes_append_right
    exact listIncludes_of_prefix (listIsPrefix_append _ (by decide))

/-- A page sample for the C5 witness: visible, enabled, stable target
whose center is covered by `<div class="overlay banner">`. -/
def exAttempt : ClickAttempt :=
  ⟨true, false, true, 40, 50, HitEl.other "div" "overlay banner"⟩

def exAttempts : List ClickAttempt := List.replicate 7 exAttempt

theorem C5_obscured_failure_witness :
    clickActionability "#buy" exAttempts =
      .failure (clickFailMsg "#buy"
        ("element does not receive pointer events: " ++
          obscuredReason "div" "overlay banner")) 40 50 ∧
    jsIncludes (clickFailMsg "#buy"
      ("element does not receive pointer events: " ++
        obscuredReason "div" "overlay banner")) "obscured" = true := by
  obtain ⟨la, hlast, hres, hinc⟩ :=
    C5_obscured_failure "#buy" "div" "overlay banner" exAttempts rfl
      (by
        intro a ha
        simp only [exAttempts, List.mem_replicate] at ha
        rw [ha.2]
        exact ⟨rfl, rfl, rfl, rfl⟩)
  have hla : la = exAttempt := by
    rw [show exAttempts.getLast? = some exAttempt from rfl] at hlast
    exact (Option.some.inj hlast).symm
  subst hla
  exact ⟨hres, hinc⟩

/-- The candidate list `qs` hands to its index step for a non-ref
selector: candidates after the (possible) text filter. -/
def qsPostFilter (body : Elem) (sel : String) (tf : Option String) :
    List Elem :=
  match tf with
  | none => qsCandidates body sel
  | some t =>
    if t = "" then qsCandidates body sel
    else (qsCandidates body sel).filter (textMatches t)

/-- C2: for a non-reference selector, `qs` (1) fails with the not-found
error when zero nodes match before filtering, (2) fails with the
distinct no-text-match error when the text filter empties a non-empty
candidate set, (3) those two errors are always distinct, and (4) fails
with the index-out-of-range error whenever the normalized index
(negative values counting from the end) falls outside
`0..matchCount-1`. -/
theorem C2_qs_error_handling (body : Elem) (sel : String) (idx : Option Int)
    (tf : Option String) (hsel : sel ≠ "") (href : isRefToken sel = false) :
    (qsCandidates body sel = [] → qs body sel idx tf = .error (.notFound sel)) ∧
    (∀ t c cs, tf = some t → t ≠ "" → qsCandidates body sel = c :: cs →
      (c :: cs).filter (textMatches t) = [] →
      qs body sel idx tf = .error (.noTextMatch sel t)) ∧
    (∀ s1 t1 s2, QsErr.noTextMatch s1 t1 ≠ QsErr.notFound s2) ∧
    (∀ c cs (i : Int), qsPostFilter body sel tf = c :: cs →
      (normIndex i (c :: cs).length < 0 ∨
        ((c :: cs).length : Int) ≤ normIndex i (c :: cs).length) →
      qs body sel (some i) tf =
        .error (.indexOutOfRange i (c :: cs).length sel)) := by
  refine ⟨?_, ?_, ?_, ?_⟩
  · intro h
    simp [qs, hsel, href, h]
  · intro t c cs htf ht hc hfil
    subst htf
    simp [qs, hsel, href, hc, ht, hfil]
  · intro s1 t1 s2
    simp
  · intro c cs i hpost hrange
    cases tf with
    | none =>
      simp only [qsPostFilter] at hpost
      simp only [qs, hsel, href, hpost]
      simp only [qsIndex]
      rw [if_pos hrange]
      simp
    | some t =>
      by_cases ht : t = ""
      · subst ht
        simp only [qsPostFilter] at hpost
        simp at hpost
        simp [qs, hsel, href, hpost]
        simp only [qsIndex]
        rw [if_pos hrange]
        simp
      · simp only [qsPostFilter, if_neg ht] at hpost
        rcases hqc : qsCandidates body sel with _ | ⟨c0, cs0⟩
        · rw [hqc] at hpost
          simp at hpost
        · rw [hqc] at hpost
          simp [qs, hsel, href, hqc, ht, hpost]
          simp only [qsIndex]
          rw [if_pos hrange]
          simp

def exBtn : Elem := .node "button" [] "Save" true [] []

def exBody : Elem := .node "body" [] "" true [exBtn] []

theorem C2_qs_error_handling_witness :
    qs exBody "input" none none = .error (.notFound "input") ∧
    qs exBody "button" none (some "nope") =
      .error (.noTextMatch "button" "nope") ∧
    qs exBody "button" (some 5) none =
      .error (.indexOutOfRange 5 1 "button") := by
  refine ⟨?_, ?_, ?_⟩
  · exact (C2_qs_error_handling exBody "input" none none (by decide) rfl).1 rfl
  · exact (C2_qs_error_handling exBody "button" none (some "nope")
      (by decide) rfl).2.1 "nope" exBtn [] rfl (by decide) rfl rfl
  · exact (C2_qs_error_handling exBody "button" (some 5) none
      (by decide) rfl).2.2.2 exBtn [] 5 rfl (Or.inr (by decide))

theorem takeWhile_append_cons {p : Char → Bool} :
    ∀ (l : List Char) (c : Char) (r : List Char),
      (∀ x ∈ l, p x = true) → p c = false →
      (l ++ c :: r).takeWhile p = l ∧ (l ++ c :: r).dropWhile p = c :: r := by
  intro l
  induction l with
  | nil =>
    intro c r _ hc
    simp [List.takeWhile, List.dropWhile, hc]
  | cons a as ih =>
    intro c r hall hc
    have ha : p a = true := hall a (List.mem_cons_self _ _)
    have ihres := ih c r (fun x hx => hall x (List.mem_cons_of_mem a hx)) hc
    simp [List.takeWhile_cons, List.dropWhile_cons, ha, ihres.1, ihres.2]

theorem digit_ne_special (x : Char) (h : x.isDigit = true) :
    (x != '"') = true ∧ (x != '=') = true := by
  constructor <;>
    · rw [bne_iff_ne]
      intro he
      subst he
      exact absurd h (by decide)

theorem isRefToken_chars (sel : String) (h : isRefToken sel = true) :
    ∀ x ∈ sel.data, (x != '"') = true ∧ (x != '=') = true := by
  intro x hx
  unfold isRefToken at h
  rcases hd : sel.data with _ | ⟨c0, rest⟩
  · rw [hd] at hx
    exact absurd hx (List.not_mem_nil x)
  · rw [hd] at h hx
    by_cases hc : c0 = 'e'
    · subst hc
      simp only [Bool.and_eq_true, List.all_eq_true] at h
      rcases List.mem_cons.mp hx with hx0 | hxr
      · subst hx0
        exact ⟨by decide, by decide⟩
      · exact digit_ne_special x (h.2 x hxr)
    · exfalso
      revert h
      split
      · rename_i rest2 heq
        injection heq with h1a h1b
        exact fun _ => hc h1a
      · exact fun h => by simp at h

theorem parseAttrSel_ref (sel : String)
    (hq : ∀ x ∈ sel.data, (x != '"') = true ∧ (x != '=') = true) :
    parseAttrSel
      ("data-bctl-ref=\"".data ++ (sel.data ++ ('"' :: ']' :: []))) =
      some ("data-bctl-ref", sel) := by
  have h1 := takeWhile_append_cons (p := (· != '='))
    "data-bctl-ref".data '=' ('"' :: (sel.data ++ ('"' :: ']' :: [])))
    (by decide) (by decide)
  have h2 := takeWhile_append_cons (p := (· != '"'))
    sel.data '"' (']' :: []) (fun x hx => (hq x hx).1) (by decide)
  show parseAttrSel
      ("data-bctl-ref".data ++ '=' :: '"' :: (sel.data ++ ('"' :: ']' :: []))) =
    some ("data-bctl-ref", sel)
  simp only [parseAttrSel, h1.1, h1.2, h2.1, h2.2]

theorem cssMatch_refSel (sel : String) (e : Elem)
    (hq : ∀ x ∈ sel.data, (x != '"') = true ∧ (x != '=') = true) :
    cssMatch (refSelStr sel) e = (getAttr e "data-bctl-ref" == some sel) := by
  have hp := parseAttrSel_ref sel hq
  show (match parseAttrSel
      ("data-bctl-ref=\"".data ++ (sel.data ++ ('"' :: ']' :: []))) with
    | some (n, v) => getAttr e n == some v
    | none => false) = (getAttr e "data-bctl-ref" == some sel)
  rw [hp]

mutual
theorem noMatch_elem (q : String) : ∀ (e : Elem),
    (∀ x ∈ allDeepElem e, cssMatch q x = false) →
    matchesElem q e = [] ∧ shadowOneElem q e = none
  | .node t a xt v cs sh, h => by
    have hself : cssMatch q (.node t a xt v cs sh) = false :=
      h _ (by simp [allDeepElem])
    have hcs : ∀ x ∈ allDeepList cs, cssMatch q x = false := by
      intro x hx
      refine h x ?_
      simp only [allDeepElem, List.mem_cons, List.mem_append]
      exact Or.inr (Or.inl hx)
    have hsh : ∀ x ∈ allDeepList sh, cssMatch q x = false := by
      intro x hx
      refine h x ?_
      simp only [allDeepElem, List.mem_cons, List.mem_append]
      exact Or.inr (Or.inr hx)
    have r1 := noMatch_list q cs hcs
    have r2 := noMatch_list q sh hsh
    constructor
    · simp [matchesElem, hself, r1.1]
    · simp [shadowOneElem, r2.1, r2.2, r1.2, Option.orElse]
theorem noMatch_list (q : String) : ∀ (es : List Elem),
    (∀ x ∈ allDeepList es, cssMatch q x = false) →
    matchesList q es = [] ∧ shadowOneList q es = none
  | [], _ => ⟨rfl, rfl⟩
  | e :: es, h => by
    have he : ∀ x ∈ allDeepElem e, cssMatch q x = false := by
      intro x hx
      refine h x ?_
      simp only [allDeepList, List.mem_append]
      exact Or.inl hx
    have hes : ∀ x ∈ allDeepList es, cssMatch q x = false := by
      intro x hx
      refine h x ?_
      simp only [allDeepList, List.mem_append]
      exact Or.inr hx
    have r1 := noMatch_elem q e he
    have r2 := noMatch_list q es hes
    constructor
    · simp [matchesList, r1.1, r2.1]
    · simp [shadowOneList, r1.2, r2.2, Option.orElse]
end

theorem deepQueryOne_refSel_none (sel : String) (body : Elem)
    (href : isRefToken sel = true)
    (hclean : ∀ x ∈ allDeepList [body],
      getAttr x "data-bctl-ref" ≠ some sel) :
    deepQueryOne (refSelStr sel) [body] = none := by
  have hq := isRefToken_chars sel href
  have hnm : ∀ x ∈ allDeepList [body], cssMatch (refSelStr sel) x = false := by
    intro x hx
    rw [cssMatch_refSel sel x hq]
    exact beq_eq_false_iff_ne.mpr (hclean x hx)
  have r := noMatch_list (refSelStr sel) [body] hnm
  simp [deepQueryOne, r.1, r.2]

theorem refMsg_includes_staleRef (sel : String) :
    jsIncludes (jsToLower (QsErr.message (.refNotFound sel)))
      "ref not found" = true := by
  simp only [QsErr.message, jsIncludes, jsToLower, String.data_append,
    List.map_append, List.append_assoc]
  exact listIncludes_of_prefix (listIsPrefix_append _ (by decide))

theorem classify_staleRef (sel : String) :
    (classifyActionError "click" (QsErr.message (.refNotFound sel))).code =
      "STALE_REF" ∧
    (classifyActionError "click" (QsErr.message (.refNotFound sel))).retriable =
      true := by
  have h := refMsg_includes_staleRef sel
  constructor <;> simp [classifyActionError, h]

/-- C3: for a selector matching the stable-reference grammar `e<digits>`,
resolution ignores the `index` and `textFilter` arguments entirely; and
when no node in the page (light or shadow) carries the
`data-bctl-ref` marker with that token — as after a newer snapshot has
cleared all markers — resolution fails with the ref-not-found error,
which the dispatch layer classifies as `STALE_REF` (retriable). -/
theorem C3_stale_ref (body : Elem) (sel : String) (idx idx2 : Option Int)
    (tf tf2 : Option String) (href : isRefToken sel = true) :
    qs body sel idx tf = qs body sel idx2 tf2 ∧
    ((∀ x ∈ allDeepList [body], getAttr x "data-bctl-ref" ≠ some sel) →
      qs body sel idx tf = .error (.refNotFound sel) ∧
      (classifyActionError "click" (QsErr.message (.refNotFound sel))).code =
        "STALE_REF" ∧
      (classifyActionError "click"
        (QsErr.message (.refNotFound sel))).retriable = true) := by
  have hsel : sel ≠ "" := by
    intro h
    rw [h] at href
    exact absurd href (by decide)
  constructor
  · simp [qs, hsel, href]
  · intro hclean
    refine ⟨?_, (classify_staleRef sel).1, (classify_staleRef sel).2⟩
    simp [qs, hsel, href, deepQueryOne_refSel_none sel body href hclean]

/-- A page whose snapshot markers have all been cleared (no
`data-bctl-ref` attribute anywhere). -/
def exCleanBody : Elem :=
  .node "body" [] "" true [.node "div" [] "" true [] []] []

theorem C3_stale_ref_witness :
    qs exCleanBody "e0" none none = qs exCleanBody "e0" (some 2) (some "x") ∧
    qs exCleanBody "e0" none none = .error (.refNotFound "e0") ∧
    (classifyActionError "click" (QsErr.message (.refNotFound "e0"))).code =
      "STALE_REF" ∧
    (classifyActionError "click"
      (QsErr.message (.refNotFound "e0"))).retriable = true := by
  have hclean : ∀ x ∈ allDeepList [exCleanBody],
      getAttr x "data-bctl-ref" ≠ some "e0" := by decide
  have h := C3_stale_ref exCleanBody "e0" none (some 2) none (some "x") rfl
  exact ⟨h.1, (h.2 hclean).1, (h.2 hclean).2.1, (h.2 hclean).2.2⟩

/-! ## Snapshot / reference assigner
(content-script.js `executeOp` `snapshot` case, lines 683-804)

`walk` starts after `clearRefs` has removed every previous marker; the
visibility gate is the layout-dependent `checkVisible`, read from the
element's `visible` field. -/

def INTERACTIVE_TAGS : List String :=
  ["a", "button", "input", "textarea", "select", "summary"]

def INTERACTIVE_ROLES : List String :=
  ["button", "link", "tab", "menuitem", "menuitemcheckbox", "menuitemradio",
    "option", "checkbox", "radio", "switch", "textbox", "combobox",
    "searchbox", "slider", "spinbutton", "treeitem"]

/-- content-script.js `isInteractive(el)`. -/
def isInteractive (e : Elem) : Bool :=
  INTERACTIVE_TAGS.contains e.tag ||
    (match getAttr e "role" with
     | some role => !(role == "") && INTERACTIVE_ROLES.contains role
     | none => false) ||
    getAttr e "contenteditable" == some "true" ||
    getAttr e "contenteditable" == some "plaintext-only" ||
    (hasAttr e "tabindex" && !(getAttr e "tabindex" == some "-1")) ||
    hasAttr e "onclick"

/-- JS `text.trim().replace(/\s+/g, " ")`. -/
def normalizeWs (s : String) : String :=
  String.intercalate " " ((s.split (·.isWhitespace)).filter (· != ""))

/-- The sequential reference token `e${refIndex}`. -/
def eTok (n : Nat) : String := "e" ++ toString n

/-- The per-node entry stored in the `refs` map. -/
structure RefInfo where
  tag : String
  ty : Option String
  ident : Option String
  role : Option String
  txt : Option String
  nm : Option String
  href : Option String
deriving DecidableEq

/-- The `refs[ref] = { tag, …opt fields }` object built per tagged node. -/
def refInfoOf (e : Elem) : RefInfo :=
  let txt := normalizeWs e.text
  { tag := e.tag
    ty := if attrTruthy e "type" then some (attrD e "type") else none
    ident := if attrTruthy e "id" then some (attrD e "id") else none
    role := match getAttr e "role" with
      | some role => if role == "" then none else some role
      | none => none
    txt := if txt == "" then none else some (String.mk (txt.data.take 100))
    nm := if attrTruthy e "name" then some (attrD e "name") else none
    href := if e.tag == "a" && attrTruthy e "href" then
        some (attrD e "href") else none }

/-- The one-line description pushed to `lines` for a tagged node. -/
def descOf (ref : String) (e : Elem) : String :=
  let tag := e.tag
  let d0 := "[" ++ ref ++ "] " ++ tag
  let d1 := if attrTruthy e "type" && tag == "input" then
      d0 ++ "[type=" ++ attrD e "type" ++ "]" else d0
  let d2 := if attrTruthy e "id" then d1 ++ "#" ++ attrD e "id" else d1
  let d3 := match getAttr e "role" with
    | some role => if role == "" then d2 else d2 ++ "[role=" ++ role ++ "]"
    | none => d2
  let txt := normalizeWs e.text
  let d4 := if txt == "" then d3
    else if txt.length ≤ 60 then d3 ++ " \"" ++ txt ++ "\""
    else d3 ++ " \"" ++ String.mk (txt.data.take 57) ++ "...\""
  let d5 := if attrTruthy e "name" then
      d4 ++ " name=\"" ++ attrD e "name" ++ "\"" else d4
  let d6 := if attrTruthy e "placeholder" then
      d5 ++ " placeholder=\"" ++ attrD e "placeholder" ++ "\"" else d5
  let d7 := if tag == "a" && attrTruthy e "href" then
      d6 ++ " href=\"" ++ attrD e "href" ++ "\"" else d6
  match getAttr e "aria-label" with
  | some al => if al == "" then d7 else d7 ++ " aria-label=\"" ++ al ++ "\""
  | none => d7

structure SnapAcc where
  refIndex : Nat
  refs : List (String × RefInfo)
  lines : List String

/-- Tag one node: mint the next token, write the marker, push one
description line and one refs entry, bump the counter. -/
def snapAssign (acc : SnapAcc) (e : Elem) : SnapAcc :=
  let ref := eTok acc.refIndex
  { refIndex := acc.refIndex + 1
    refs := acc.refs ++ [(ref, refInfoOf e)]
    lines := acc.lines ++ [descOf ref e] }

mutual
def snapWalk (onlyInteractive : Bool) (acc : SnapAcc) : Elem → SnapAcc
  | e@(.node _ _ _ _ cs sh) =>
    if !e.visible then acc
    else
      let acc1 := if !onlyInteractive || isInteractive e then
          snapAssign acc e else acc
      let acc2 := snapWalkList onlyInteractive acc1 cs
      snapWalkList onlyInteractive acc2 sh
def snapWalkList (onlyInteractive : Bool) (acc : SnapAcc) :
    List Elem → SnapAcc
  | [] => acc
  | e :: es => snapWalkList onlyInteractive (snapWalk onlyInteractive acc e) es
end

structure SnapshotResult where
  lines : List String
  refs : List (String × RefInfo)
  total : Nat

/-- The `snapshot` operation: `onlyInteractive = (params.interactive
!== false)`; walk from `document.body` with fresh counters. -/
def snapshotOp (interactiveParam : Option Bool) (body : Elem) :
    SnapshotResult :=
  let onlyInteractive := interactiveParam != some false
  let acc := snapWalk onlyInteractive ⟨0, [], []⟩ body
  ⟨acc.lines, acc.refs, acc.refIndex⟩

/-- The bookkeeping invariant of the walk: keys are `e0..e(refIndex-1)`
in order and both accumulators have exactly `refIndex` entries. -/
def snapGood (acc : SnapAcc) : Prop :=
  acc.refs.map Prod.fst = (List.range acc.refIndex).map eTok ∧
  acc.refs.length = acc.refIndex ∧
  acc.lines.length = acc.refIndex

theorem snapAssign_good (acc : SnapAcc) (e : Elem) (h : snapGood acc) :
    snapGood (snapAssign acc e) := by
  obtain ⟨h1, h2, h3⟩ := h
  refine ⟨?_, ?_, ?_⟩
  · simp [snapAssign, h1, List.range_succ]
  · simp [snapAssign, h2]
  · simp [snapAssign, h3]

mutual
theorem snapWalk_good (oi : Bool) : ∀ (e : Elem) (acc : SnapAcc),
    snapGood acc → snapGood (snapWalk oi acc e)
  | .node t a xt v cs sh, acc, h => by
    simp only [snapWalk]
    split
    · exact h
    · refine snapWalkList_good oi sh _ (snapWalkList_good oi cs _ ?_)
      split
      · exact snapAssign_good acc _ h
      · exact h
theorem snapWalkList_good (oi : Bool) : ∀ (es : List Elem) (acc : SnapAcc),
    snapGood acc → snapGood (snapWalkList oi acc es)
  | [], _, h => h
  | e :: es, acc, h =>
    snapWalkList_good oi es _ (snapWalk_good oi e acc h)
end

/-- C10: every snapshot call assigns reference tokens sequentially from
`e0` (walking a node before its light children and those before the
shadow children, per `snapWalk`), so the refs map has exactly the keys
`e0..e(total-1)` in order with no gaps, and the reported total equals
both the number of description lines and the number of refs entries. -/
theorem C10_snapshot_refs (interactiveParam : Option Bool) (body : Elem) :
    (snapshotOp interactiveParam body).refs.map Prod.fst =
      (List.range (snapshotOp interactiveParam body).total).map eTok ∧
    (snapshotOp interactiveParam body).refs.length =
      (snapshotOp interactiveParam body).total ∧
    (snapshotOp interactiveParam body).lines.length =
      (snapshotOp interactiveParam body).total := by
  have h := snapWalk_good (interactiveParam != some false) body ⟨0, [], []⟩
    ⟨rfl, rfl, rfl⟩
  exact ⟨h.1, h.2.1, h.2.2⟩
